import Mathlib

/-!
Verification development for the `gosoap` SOAP library.

The Go sources are shallowly embedded as Lean definitions:

* the XML token stream consumed by `encoding/xml.Decoder` is a `List Token`;
  `DecodeElement` on a caller-supplied destination is abstracted by a decode
  function passed as an argument (its behaviour depends on the caller's Go
  type, which lives outside this repository);
* `Body`, `Fault`, `faultDetail`, `Envelope` and the WS-Security structures
  are Lean structures mirroring the Go structs field by field, with Go `nil`
  pointers / nil interfaces rendered as `Option`;
* functions from the Go standard library and third-party libraries
  (`encoding/xml` marshalling, `crypto/sha1`, `encoding/base64`,
  `crypto/rsa`, `mime/multipart`, `etree` parsing) are collaborators passed
  in as function arguments; functions belonging to this repository
  (`Body.UnmarshalXML`, `faultDetail.UnmarshalXML`, `canonicalize`,
  `canonicalizeChildren`, `getXopContentIDIncludePath`,
  `getFieldFromIncludePath`, `unwrapValue`, `getNameFromTag`,
  `getExplicitXMLName`, `xopDecoder.decode`, `WSSEAuthInfo.sign`,
  `Envelope.signWithWSSEInfo`) are translated line by line.
-/

namespace Gosoap

/-- Namespace constants from `envelope.go` and the WSSE source file. -/
def xsdNS : String := "http://www.w3.org/2001/XMLSchema"

/-- Value of `xsiNS` in `envelope.go`. -/
def xsiNS : String := "http://www.w3.org/2001/XMLSchema-instance"

/-- Value of `soapEnvNS` in `envelope.go`. -/
def soapEnvNS : String := "http://schemas.xmlsoap.org/soap/envelope/"

/-- Value of `xopNS` in `xop.go`. -/
def xopNS : String := "http://www.w3.org/2004/08/xop/include"

/-- Value of `wsseNS` in the WSSE source file. -/
def wsseNS : String := "http://docs.oasis-open.org/wss/2004/01/oasis-200401-wss-wssecurity-secext-1.0.xsd"

/-- Value of `wsuNS` in the WSSE source file. -/
def wsuNS : String := "http://docs.oasis-open.org/wss/2004/01/oasis-200401-wss-wssecurity-utility-1.0.xsd"

/-- Value of `dsigNS` in the WSSE source file. -/
def dsigNS : String := "http://www.w3.org/2000/09/xmldsig#"

/-- Value of `encTypeBinary` in the WSSE source file. -/
def encTypeBinary : String := "http://docs.oasis-open.org/wss/2004/01/oasis-200401-wss-soap-message-security-1.0#Base64Binary"

/-- Value of `valTypeX509Token` in the WSSE source file. -/
def valTypeX509Token : String := "http://docs.oasis-open.org/wss/2004/01/oasis-200401-wss-x509-token-profile-1.0#X509v3"

/-- Value of `canonicalizationExclusiveC14N` in the WSSE source file. -/
def canonicalizationExclusiveC14N : String := "http://www.w3.org/2001/10/xml-exc-c14n#"

/-- Value of `rsaSha1Sig` in the WSSE source file. -/
def rsaSha1Sig : String := "http://www.w3.org/2000/09/xmldsig#rsa-sha1"

/-- Value of `sha1Sig` in the WSSE source file. -/
def sha1Sig : String := "http://www.w3.org/2000/09/xmldsig#sha1"

/-- Errors of the library. Each named `errors.New` value of the Go sources is a
constructor; `fmt.Errorf` errors carry their formatted arguments. `xmlError`
stands for any error produced by the external `encoding/xml` / `etree` /
`multipart` machinery (syntax errors, `io.EOF` reaching the decoder,
`DecodeElement` into a nil destination, decode failures of the caller's type). -/
inductive SoapErr where
  | envelopeMisconfigured
  | unableToSignEmptyEnvelope
  | faultDetailPresentButNotSpecified
  | multipartBodyEmpty
  | cannotSetBytesElement
  | missingXOPPart
  | fieldNotFound
  | fieldNotArray
  | invalidCanonicalizationPath
  | invalidIncludePath (path : List String)
  | invalidObjectPath (expected got : String)
  | pathIndexOutOfRange
  | resolverFuelExhausted
  | xmlError
  deriving DecidableEq, Repr

/-- One token delivered by `encoding/xml.Decoder.Token()`: a start element
with its qualified name (resolved namespace and local name), an end element,
or any other token (character data, comments, directives). End of the list
models the underlying reader being exhausted (`Token()` then returns an
error). -/
inductive Token where
  | startElem (space localName : String)
  | endElem
  | charData
  deriving DecidableEq, Repr

/-- Model of `faultDetail` (request.go): the optional caller-supplied detail
destination. A Go nil `Content` interface is `none`. -/
structure FaultDetail (δ : Type) where
  content : Option δ
  deriving Repr

/-- Model of `Fault` (request.go): `Code`, `String`, `Actor` and the optional
`DetailInternal` pointer. -/
structure Fault (δ : Type) where
  code : String
  string_ : String
  actor : String
  detailInternal : Option (FaultDetail δ)
  deriving Repr

/-- Model of `NewFault()` (request.go): the zero `Fault` struct. -/
def NewFault (δ : Type) : Fault δ :=
  { code := "", string_ := "", actor := "", detailInternal := none }

/-- Model of `NewFaultWithDetail(detail)` (request.go). -/
def NewFaultWithDetail (d : δ) : Fault δ :=
  { code := "", string_ := "", actor := "", detailInternal := some { content := some d } }

/-- Model of `Fault.Detail()` (request.go): returns nil when `DetailInternal`
is nil, else `DetailInternal.Content`. -/
def Fault.Detail (f : Fault δ) : Option δ :=
  match f.detailInternal with
  | none => none
  | some d => d.content

/-- Model of `Fault.Error()` (request.go):
`fmt.Sprintf("soap fault: %s (%s)", f.Code, f.String)`. -/
def Fault.Error (f : Fault δ) : String :=
  "soap fault: " ++ f.code ++ " (" ++ f.string_ ++ ")"

/-- Model of `Body` (envelope.go): the WS-Security utility attributes and the
mutually exclusive `Fault` / `Content` destinations. `α` is the caller's
content type, `δ` the caller's fault-detail type. -/
structure Body (α δ : Type) where
  xmlnsWsu : String
  id : String
  fault : Option (Fault δ)
  content : Option α
  deriving Repr

/-- Model of the `Header` field of `Envelope` plus `Envelope` itself
(envelope.go). `Headers []interface{}` receives one entry per `AddHeaders`
call (the variadic slice is appended as a single element), so the header list
is a list of groups. -/
inductive HeaderElem (σ : Type) where
  | security (s : σ)
  | otherHeader (n : Nat)
  deriving Repr

/-- Model of `Envelope` (envelope.go). `header = none` is the nil `*Header`. -/
structure Envelope (α δ σ : Type) where
  xmlnsXsd : String
  xmlnsXsi : String
  header : Option (List (List (HeaderElem σ)))
  body : Body α δ
  deriving Repr

/-- Model of `NewEnvelope(content)` (envelope.go). -/
def NewEnvelope (σ : Type) (content : α) : Envelope α δ σ :=
  { xmlnsXsd := ""
    xmlnsXsi := ""
    header := none
    body := { xmlnsWsu := "", id := "", fault := none, content := some content } }

/-- Model of `Envelope.AddHeaders(elems...)` (envelope.go): allocate the
header if nil and append the argument slice as one entry. -/
def Envelope.AddHeaders (e : Envelope α δ σ) (elems : List (HeaderElem σ)) : Envelope α δ σ :=
  { e with header := some ((e.header.getD []) ++ [elems]) }

/-- Helper for the token model of `Decoder.DecodeElement`: after the start
tag of an element has been consumed, split the remaining stream into the
element's inner tokens and the tokens following its matching end tag.
`none` models a malformed stream (no matching end tag), on which
`DecodeElement` fails with a syntax error. -/
def takeElemAux : List Token → Nat → Option (List Token × List Token)
  | [], _ => none
  | .startElem s l :: ts, d =>
    (takeElemAux ts (d + 1)).map (fun p => (.startElem s l :: p.1, p.2))
  | .endElem :: ts, 0 => some ([], ts)
  | .endElem :: ts, d + 1 =>
    (takeElemAux ts d).map (fun p => (.endElem :: p.1, p.2))
  | .charData :: ts, d =>
    (takeElemAux ts d).map (fun p => (.charData :: p.1, p.2))

theorem takeElemAux_rest_lt (ts : List Token) (d : Nat) (p : List Token × List Token)
    (h : takeElemAux ts d = some p) : p.2.length < ts.length := by
  induction ts generalizing d p with
  | nil => simp [takeElemAux] at h
  | cons t ts ih =>
    cases t with
    | startElem s l =>
      simp only [takeElemAux, Option.map_eq_some'] at h
      obtain ⟨q, hq, rfl⟩ := h
      have := ih _ _ hq
      simpa using Nat.lt_succ_of_lt this
    | endElem =>
      cases d with
      | zero =>
        simp only [takeElemAux, Option.some_inj] at h
        subst h
        simp
      | succ d =>
        simp only [takeElemAux, Option.map_eq_some'] at h
        obtain ⟨q, hq, rfl⟩ := h
        have := ih _ _ hq
        simpa using Nat.lt_succ_of_lt this
    | charData =>
      simp only [takeElemAux, Option.map_eq_some'] at h
      obtain ⟨q, hq, rfl⟩ := h
      have := ih _ _ hq
      simpa using Nat.lt_succ_of_lt this

/-- The token loop of `Body.UnmarshalXML` (envelope.go lines 129-159).
`dF` and `dC` model `d.DecodeElement` into the non-nil fault / content
destination: given the element's qualified name and inner tokens they return
the decoded value, or `none` on a decode error. `DecodeElement` into a nil
destination fails inside `encoding/xml`, which the `none` branches on
`b.fault` / `b.content` reproduce. On success the loop returns the updated
body and the tokens following the consumed ones. -/
def bodyLoop (dF : String → String → List Token → Option (Fault δ))
    (dC : String → String → List Token → Option α) :
    Body α δ → List Token → Except SoapErr (Body α δ × List Token)
  | _, [] => .error .xmlError
  | b, .charData :: ts => bodyLoop dF dC b ts
  | b, .endElem :: ts => .ok (b, ts)
  | b, .startElem sp l :: ts =>
    match h : takeElemAux ts 0 with
    | none => .error .xmlError
    | some (inner, rest) =>
      if sp = soapEnvNS ∧ l = "Fault" then
        match b.fault with
        | none => .error .xmlError
        | some _ =>
          match dF sp l inner with
          | none => .error .xmlError
          | some f => bodyLoop dF dC { b with fault := some f, content := none } rest
      else
        match b.content with
        | none => .error .xmlError
        | some _ =>
          match dC sp l inner with
          | none => .error .xmlError
          | some c => bodyLoop dF dC { b with content := some c, fault := none } rest
termination_by _ ts => ts.length
decreasing_by
  all_goals simp_wf
  all_goals first
    | omega
    | exact Nat.lt_succ_of_lt (takeElemAux_rest_lt _ _ _ h)

/-- Model of `Body.UnmarshalXML` (envelope.go lines 119-160): reject a nil
content destination, default a nil fault destination to `NewFault()`, then
run the token loop. -/
def Body.UnmarshalXML (dF : String → String → List Token → Option (Fault δ))
    (dC : String → String → List Token → Option α)
    (b : Body α δ) (ts : List Token) : Except SoapErr (Body α δ × List Token) :=
  match b.content with
  | none => .error .envelopeMisconfigured
  | some _ =>
    match b.fault with
    | none => bodyLoop dF dC { b with fault := some (NewFault δ) } ts
    | some _ => bodyLoop dF dC b ts

/-- True when the token stream holds at least one child start element before
the end tag that terminates the enclosing `Body` element (the loop of
`Body.UnmarshalXML` stops at that end tag). -/
def hasChildBeforeEnd : List Token → Bool
  | [] => false
  | .startElem _ _ :: _ => true
  | .endElem :: _ => false
  | .charData :: ts => hasChildBeforeEnd ts

/-- Exactly one of the two destinations of a `Body` is non-nil. -/
def exclusiveBody (b : Body α δ) : Bool :=
  b.content.isSome != b.fault.isSome

theorem bodyLoop_preserves_exclusive
    (dF : String → String → List Token → Option (Fault δ))
    (dC : String → String → List Token → Option α)
    (b : Body α δ) (ts : List Token) (b' : Body α δ) (rest : List Token)
    (hok : bodyLoop dF dC b ts = .ok (b', rest))
    (hx : exclusiveBody b = true) : exclusiveBody b' = true := by
  induction b, ts using bodyLoop.induct dF dC generalizing b' rest with
  | case1 b => simp [bodyLoop] at hok
  | case2 b ts ih =>
    rw [bodyLoop] at hok
    exact ih _ _ hok hx
  | case3 b ts =>
    rw [bodyLoop] at hok
    simp only [Except.ok.injEq, Prod.mk.injEq] at hok
    obtain ⟨rfl, rfl⟩ := hok
    exact hx
  | case4 b sp l ts htake =>
    rw [bodyLoop, htake] at hok
    simp at hok
  | case5 b sp l ts inner rest' htake hname hfault =>
    rw [bodyLoop, htake] at hok
    simp only [if_pos hname, hfault] at hok
    simp at hok
  | case6 b sp l ts inner rest' htake hname f0 hfault hdF =>
    rw [bodyLoop, htake] at hok
    simp only [if_pos hname, hfault, hdF] at hok
    simp at hok
  | case7 b sp l ts inner rest' htake hname f0 hfault f hdF ih =>
    rw [bodyLoop, htake] at hok
    simp only [if_pos hname, hfault, hdF] at hok
    exact ih _ _ hok (by simp [exclusiveBody])
  | case8 b sp l ts inner rest' htake hname hcontent =>
    rw [bodyLoop, htake] at hok
    simp only [if_neg hname, hcontent] at hok
    simp at hok
  | case9 b sp l ts inner rest' htake hname c0 hcontent hdC =>
    rw [bodyLoop, htake] at hok
    simp only [if_neg hname, hcontent, hdC] at hok
    simp at hok
  | case10 b sp l ts inner rest' htake hname c0 hcontent c hdC ih =>
    rw [bodyLoop, htake] at hok
    simp only [if_neg hname, hcontent, hdC] at hok
    exact ih _ _ hok (by simp [exclusiveBody])

theorem bodyLoop_no_child (dF : String → String → List Token → Option (Fault δ))
    (dC : String → String → List Token → Option α)
    (b : Body α δ) (ts : List Token) (b' : Body α δ) (rest : List Token)
    (hok : bodyLoop dF dC b ts = .ok (b', rest))
    (hnc : hasChildBeforeEnd ts = false) : b' = b := by
  induction b, ts using bodyLoop.induct dF dC generalizing b' rest with
  | case1 b => simp [bodyLoop] at hok
  | case2 b ts ih =>
    rw [bodyLoop] at hok
    exact ih _ _ hok (by simpa [hasChildBeforeEnd] using hnc)
  | case3 b ts =>
    rw [bodyLoop] at hok
    simp only [Except.ok.injEq, Prod.mk.injEq] at hok
    exact hok.1.symm
  | case4 b sp l ts htake => simp [hasChildBeforeEnd] at hnc
  | case5 b sp l ts inner rest' htake hname hfault => simp [hasChildBeforeEnd] at hnc
  | case6 b sp l ts inner rest' htake hname f0 hfault hdF => simp [hasChildBeforeEnd] at hnc
  | case7 b sp l ts inner rest' htake hname f0 hfault f hdF ih => simp [hasChildBeforeEnd] at hnc
  | case8 b sp l ts inner rest' htake hname hcontent => simp [hasChildBeforeEnd] at hnc
  | case9 b sp l ts inner rest' htake hname c0 hcontent hdC => simp [hasChildBeforeEnd] at hnc
  | case10 b sp l ts inner rest' htake hname c0 hcontent c hdC ih => simp [hasChildBeforeEnd] at hnc

theorem bodyLoop_first_child (dF : String → String → List Token → Option (Fault δ))
    (dC : String → String → List Token → Option α)
    (b : Body α δ) (ts : List Token) (b' : Body α δ) (rest : List Token)
    (hok : bodyLoop dF dC b ts = .ok (b', rest))
    (hc : hasChildBeforeEnd ts = true) : exclusiveBody b' = true := by
  induction b, ts using bodyLoop.induct dF dC generalizing b' rest with
  | case1 b => simp [bodyLoop] at hok
  | case2 b ts ih =>
    rw [bodyLoop] at hok
    exact ih _ _ hok (by simpa [hasChildBeforeEnd] using hc)
  | case3 b ts => simp [hasChildBeforeEnd] at hc
  | case4 b sp l ts htake =>
    rw [bodyLoop, htake] at hok
    simp at hok
  | case5 b sp l ts inner rest' htake hname hfault =>
    rw [bodyLoop, htake] at hok
    simp only [if_pos hname, hfault] at hok
    simp at hok
  | case6 b sp l ts inner rest' htake hname f0 hfault hdF =>
    rw [bodyLoop, htake] at hok
    simp only [if_pos hname, hfault, hdF] at hok
    simp at hok
  | case7 b sp l ts inner rest' htake hname f0 hfault f hdF ih =>
    rw [bodyLoop, htake] at hok
    simp only [if_pos hname, hfault, hdF] at hok
    exact bodyLoop_preserves_exclusive dF dC _ _ _ _ hok (by simp [exclusiveBody])
  | case8 b sp l ts inner rest' htake hname hcontent =>
    rw [bodyLoop, htake] at hok
    simp only [if_neg hname, hcontent] at hok
    simp at hok
  | case9 b sp l ts inner rest' htake hname c0 hcontent hdC =>
    rw [bodyLoop, htake] at hok
    simp only [if_neg hname, hcontent, hdC] at hok
    simp at hok
  | case10 b sp l ts inner rest' htake hname c0 hcontent c hdC ih =>
    rw [bodyLoop, htake] at hok
    simp only [if_neg hname, hcontent, hdC] at hok
    exact bodyLoop_preserves_exclusive dF dC _ _ _ _ hok (by simp [exclusiveBody])

/-- Concrete decode of a `Body` element with no child elements: the Go code
enters `UnmarshalXML` with a content destination and a nil fault, defaults
the fault to `NewFault()`, reads the closing tag of `Body` and returns
without clearing either destination. -/
def emptyBodyDecode : Except SoapErr (Body Nat Nat × List Token) :=
  Body.UnmarshalXML (fun _ _ _ => none) (fun _ _ _ => none)
    { xmlnsWsu := "", id := "", fault := none, content := some 0 } [Token.endElem]

/-- The body state produced by `emptyBodyDecode`. -/
def emptyBodyDecodeBody : Body Nat Nat :=
  { xmlnsWsu := "", id := "", fault := some (NewFault Nat), content := some 0 }

/-- C1 counterexample: a successful `Body.UnmarshalXML` on a `Body` element
with no child elements leaves BOTH `Content` and `Fault` non-nil, refuting
mutual exclusivity as stated. -/
theorem C1_counterexample :
    emptyBodyDecode = .ok (emptyBodyDecodeBody, []) ∧
    emptyBodyDecodeBody.content.isSome = true ∧
    emptyBodyDecodeBody.fault.isSome = true ∧
    exclusiveBody emptyBodyDecodeBody = false := by
  refine ⟨?_, rfl, rfl, rfl⟩
  simp [emptyBodyDecode, emptyBodyDecodeBody, Body.UnmarshalXML, bodyLoop]

/-- C1 (amended): for every call of `Body.UnmarshalXML` that returns no
error, exactly one of `Content` and `Fault` is non-nil afterwards provided
the `Body` element contains at least one child element; when it contains no
child elements, both `Content` and `Fault` are non-nil afterwards (the fault
defaulted by the decoder, the content untouched). -/
theorem C1_body_unmarshal_exclusivity
    (dF : String → String → List Token → Option (Fault δ))
    (dC : String → String → List Token → Option α)
    (b : Body α δ) (ts : List Token) (b' : Body α δ) (rest : List Token)
    (hok : Body.UnmarshalXML dF dC b ts = .ok (b', rest)) :
    (hasChildBeforeEnd ts = true → exclusiveBody b' = true) ∧
    (hasChildBeforeEnd ts = false →
      b'.content.isSome = true ∧ b'.fault.isSome = true) := by
  rcases b with ⟨w, i, bf, bc⟩
  cases bc with
  | none => simp [Body.UnmarshalXML] at hok
  | some c =>
    cases bf with
    | none =>
      simp only [Body.UnmarshalXML] at hok
      refine ⟨fun hc => bodyLoop_first_child _ _ _ _ _ _ hok hc, fun hnc => ?_⟩
      have hb := bodyLoop_no_child _ _ _ _ _ _ hok hnc
      subst hb
      exact ⟨rfl, rfl⟩
    | some f0 =>
      simp only [Body.UnmarshalXML] at hok
      refine ⟨fun hc => bodyLoop_first_child _ _ _ _ _ _ hok hc, fun hnc => ?_⟩
      have hb := bodyLoop_no_child _ _ _ _ _ _ hok hnc
      subst hb
      exact ⟨rfl, rfl⟩

/-- Witness for `C1_body_unmarshal_exclusivity` at a concrete input: a body
with one content child decodes with exactly one destination set. -/
theorem C1_body_unmarshal_exclusivity_witness :
    exclusiveBody
      ({ xmlnsWsu := "", id := "", fault := none, content := some 9 } : Body Nat Nat) = true ∧
    hasChildBeforeEnd [Token.startElem "" "x", Token.endElem, Token.endElem] = true :=
  ⟨(C1_body_unmarshal_exclusivity (fun _ _ _ => none) (fun _ _ _ => some 9)
      { xmlnsWsu := "", id := "", fault := none, content := some 3 }
      [Token.startElem "" "x", Token.endElem, Token.endElem]
      { xmlnsWsu := "", id := "", fault := none, content := some 9 } []
      (by simp [Body.UnmarshalXML, bodyLoop, takeElemAux, soapEnvNS])).1 rfl, rfl⟩

/-- C3: dispatch of the first child element of `Body`. A child whose
qualified name is the SOAP-envelope `Fault` decodes into `Fault` and clears
`Content`; any other qualified name decodes into `Content` and clears
`Fault`; in both cases decoding consumes exactly up to the first closing tag
of `Body`, leaving the following tokens (`after`) unread. -/
theorem C3_body_unmarshal_dispatch
    (dF : String → String → List Token → Option (Fault δ))
    (dC : String → String → List Token → Option α)
    (b : Body α δ) (sp l : String) (ts inner after : List Token)
    (hsplit : takeElemAux ts 0 = some (inner, Token.endElem :: after))
    (hcontent : b.content.isSome = true) :
    (sp = soapEnvNS ∧ l = "Fault" →
      ∀ f, dF sp l inner = some f →
        Body.UnmarshalXML dF dC b (Token.startElem sp l :: ts)
          = .ok ({ b with fault := some f, content := none }, after)) ∧
    (¬(sp = soapEnvNS ∧ l = "Fault") →
      ∀ c, dC sp l inner = some c →
        Body.UnmarshalXML dF dC b (Token.startElem sp l :: ts)
          = .ok ({ b with content := some c, fault := none }, after)) := by
  rcases b with ⟨w, i, bf, bc⟩
  cases bc with
  | none => simp at hcontent
  | some c0 =>
    constructor
    · rintro ⟨rfl, rfl⟩ f hf
      cases bf with
      | none =>
        simp only [Body.UnmarshalXML]
        rw [bodyLoop, hsplit]
        simp [hf, bodyLoop]
      | some f0 =>
        simp only [Body.UnmarshalXML]
        rw [bodyLoop, hsplit]
        simp [hf, bodyLoop]
    · intro hne c hc
      cases bf with
      | none =>
        simp only [Body.UnmarshalXML]
        rw [bodyLoop, hsplit]
        simp [hne, hc, bodyLoop]
      | some f0 =>
        simp only [Body.UnmarshalXML]
        rw [bodyLoop, hsplit]
        simp [hne, hc, bodyLoop]

/-- Witness for `C3_body_unmarshal_dispatch` at a concrete input: a
non-Fault child is decoded into `Content` and the fault cleared, and
decoding stops at the closing tag of `Body`. -/
theorem C3_body_unmarshal_dispatch_witness :
    Body.UnmarshalXML (fun _ _ _ => (none : Option (Fault Nat))) (fun _ _ _ => some 9)
      { xmlnsWsu := "", id := "", fault := none, content := some 3 }
      [Token.startElem "urn:c" "Msg", Token.endElem, Token.endElem]
      = .ok ({ xmlnsWsu := "", id := "", fault := none, content := some 9 }, []) :=
  (C3_body_unmarshal_dispatch (fun _ _ _ => none) (fun _ _ _ => some 9)
      { xmlnsWsu := "", id := "", fault := none, content := some 3 }
      "urn:c" "Msg" [Token.endElem, Token.endElem] [] []
      rfl rfl).2 (by decide) 9 rfl

/-- The token loop of `faultDetail.UnmarshalXML` (request.go lines 175-192):
every child start element is decoded into the (non-nil) content destination;
the loop returns at the end tag of `<detail>`. -/
def fdLoop (dC : String → String → List Token → Option δ) :
    FaultDetail δ → List Token → Except SoapErr (FaultDetail δ × List Token)
  | _, [] => .error .xmlError
  | f, .charData :: ts => fdLoop dC f ts
  | f, .endElem :: ts => .ok (f, ts)
  | _, .startElem sp l :: ts =>
    match h : takeElemAux ts 0 with
    | none => .error .xmlError
    | some (inner, rest) =>
      match dC sp l inner with
      | none => .error .xmlError
      | some v => fdLoop dC { content := some v } rest
termination_by _ ts => ts.length
decreasing_by
  all_goals simp_wf
  all_goals first
    | omega
    | exact Nat.lt_succ_of_lt (takeElemAux_rest_lt _ _ _ h)

/-- Model of `faultDetail.UnmarshalXML` (request.go lines 169-193): a nil
content destination is rejected with `ErrFaultDetailPresentButNotSpecified`
before any token is read; otherwise the loop runs. -/
def FaultDetail.UnmarshalXML (dC : String → String → List Token → Option δ)
    (f : FaultDetail δ) (ts : List Token) : Except SoapErr (FaultDetail δ × List Token) :=
  match f.content with
  | none => .error .faultDetailPresentButNotSpecified
  | some _ => fdLoop dC f ts

/-- C5: decoding any `<detail>` element with no detail destination supplied
(`faultDetail.Content` nil) returns `ErrFaultDetailPresentButNotSpecified`,
for every token stream and every decode behaviour of the caller's type; the
error is raised before a single token of the detail payload is consumed, so
the detail is never partially decoded. -/
theorem C5_fault_detail_nil_destination (δ : Type)
    (dC : String → String → List Token → Option δ) (ts : List Token) :
    FaultDetail.UnmarshalXML dC ({ content := none } : FaultDetail δ) ts
      = .error .faultDetailPresentButNotSpecified := rfl

/-- The fault of end-to-end scenario B: `faultcode=FaultCodeValue`,
`faultstring=FaultStringValue`, `faultactor=FaultActorValue`, no detail. -/
def scenarioBFault : Fault Nat :=
  { code := "FaultCodeValue"
    string_ := "FaultStringValue"
    actor := "FaultActorValue"
    detailInternal := none }

/-- C9: `Fault.Error()` always formats as `soap fault: <Code> (<String>)`;
`Fault.Detail()` is nil when no detail destination is present and returns
the detail destination when one is; on the scenario-B fault the two
accessors return the claimed concrete values. -/
theorem C9_fault_error_and_detail (δ : Type) (f : Fault δ) :
    f.Error = "soap fault: " ++ f.code ++ " (" ++ f.string_ ++ ")" ∧
    (f.detailInternal = none → f.Detail = none) ∧
    (∀ fd, f.detailInternal = some fd → f.Detail = fd.content) ∧
    scenarioBFault.Error = "soap fault: FaultCodeValue (FaultStringValue)" ∧
    scenarioBFault.Detail = none := by
  refine ⟨rfl, fun h => ?_, fun fd h => ?_, rfl, rfl⟩
  · simp [Fault.Detail, h]
  · simp [Fault.Detail, h]

/-- Witness for `C9_fault_error_and_detail` at the scenario-B fault, with
the detail-related hypotheses discharged at concrete inputs. -/
theorem C9_fault_error_and_detail_witness :
    scenarioBFault.Error = "soap fault: FaultCodeValue (FaultStringValue)" ∧
    scenarioBFault.Detail = none ∧
    (NewFaultWithDetail (5 : Nat)).Detail = some 5 :=
  ⟨(C9_fault_error_and_detail Nat scenarioBFault).2.2.2.1,
   (C9_fault_error_and_detail Nat scenarioBFault).2.1 rfl,
   (C9_fault_error_and_detail Nat (NewFaultWithDetail 5)).2.2.1 { content := some 5 } rfl⟩

theorem takeElemAux_append (xs ys : List Token) (d : Nat) (i r : List Token)
    (h : takeElemAux xs d = some (i, r)) : takeElemAux (xs ++ ys) d = some (i, r ++ ys) := by
  induction xs generalizing d i r with
  | nil => simp [takeElemAux] at h
  | cons t xs ih =>
    cases t with
    | startElem s l =>
      simp only [takeElemAux, Option.map_eq_some'] at h
      obtain ⟨⟨i1, r1⟩, hq, hqe⟩ := h
      cases hqe
      have hih := ih _ _ _ hq
      simp [takeElemAux, hih]
    | endElem =>
      cases d with
      | zero =>
        simp only [takeElemAux, Option.some_inj] at h
        cases h
        simp [takeElemAux]
      | succ d =>
        simp only [takeElemAux, Option.map_eq_some'] at h
        obtain ⟨⟨i1, r1⟩, hq, hqe⟩ := h
        cases hqe
        have hih := ih _ _ _ hq
        simp [takeElemAux, hih]
    | charData =>
      simp only [takeElemAux, Option.map_eq_some'] at h
      obtain ⟨⟨i1, r1⟩, hq, hqe⟩ := h
      cases hqe
      have hih := ih _ _ _ hq
      simp [takeElemAux, hih]

/-- Model of `xml.Marshal` applied to an envelope built by
`NewEnvelope(content)` and serialized by `Request.serialize` without signing:
the xsd/xsi attributes are empty (`omitempty`), the header is a nil pointer
(omitted), so the emitted token stream is exactly
`<Envelope><Body>` ++ content tokens ++ `</Body></Envelope>`. The caller's
content serialization (`encoding/xml` on the caller's type) is the
collaborator argument `contentTokens`. -/
def envelopeMarshal (contentTokens : List Token) : List Token :=
  Token.startElem soapEnvNS "Envelope" ::
    Token.startElem soapEnvNS "Body" :: (contentTokens ++ [Token.endElem, Token.endElem])

/-- Model of `xml.Unmarshal` into an `Envelope` destination for documents of
the shape produced by `envelopeMarshal` (modelled from `encoding/xml`
semantics: the root element must match the `XMLName` of `Envelope`, the
`Body` child is dispatched to the custom `Body.UnmarshalXML`). Documents of
any other shape are outside what the library emits and map to `xmlError`. -/
def envelopeUnmarshal (dF : String → String → List Token → Option (Fault δ))
    (dC : String → String → List Token → Option α)
    (e : Envelope α δ σ) (ts : List Token) : Except SoapErr (Envelope α δ σ) :=
  match ts with
  | .startElem sp l :: rest =>
    if sp = soapEnvNS ∧ l = "Envelope" then
      match rest with
      | .startElem sp2 l2 :: rest2 =>
        if sp2 = soapEnvNS ∧ l2 = "Body" then
          match Body.UnmarshalXML dF dC e.body rest2 with
          | .error err => .error err
          | .ok (b', _) => .ok { e with body := b' }
        else .error .xmlError
      | _ => .error .xmlError
    else .error .xmlError
  | _ => .error .xmlError

/-- C4: round-trip. For a content value `c` of a serializable type — i.e.
whose marshalled form `m c` is a single well-formed element, not named like
the SOAP `Fault`, and whose unmarshal `u` restores `c` from that form —
encoding an envelope built by `NewEnvelope c` and decoding the result into a
freshly-constructed destination (`NewEnvelope d0`) yields the original
content value and no fault. -/
theorem C4_envelope_round_trip (σ : Type)
    (dF : String → String → List Token → Option (Fault δ))
    (u : String → String → List Token → Option α)
    (m : α → List Token) (c d0 : α) (sp l : String) (body inner : List Token)
    (hm : m c = Token.startElem sp l :: body)
    (hwf : takeElemAux body 0 = some (inner, []))
    (hname : ¬(sp = soapEnvNS ∧ l = "Fault"))
    (hu : u sp l inner = some c) :
    envelopeUnmarshal dF u (NewEnvelope σ d0 : Envelope α δ σ) (envelopeMarshal (m c))
      = .ok { (NewEnvelope σ d0 : Envelope α δ σ) with
              body := { xmlnsWsu := "", id := "", fault := none, content := some c } } := by
  have happ := takeElemAux_append body [Token.endElem, Token.endElem] 0 inner [] hwf
  simp only [List.nil_append] at happ
  simp only [envelopeMarshal, hm, envelopeUnmarshal, List.cons_append]
  simp only [NewEnvelope, Body.UnmarshalXML]
  rw [bodyLoop, happ]
  simp only [hname, if_false, hu]
  rw [bodyLoop]
  simp

/-- Witness for `C4_envelope_round_trip` at a concrete content value. -/
theorem C4_envelope_round_trip_witness :
    envelopeUnmarshal (fun _ _ _ => (none : Option (Fault Nat)))
      (fun _ l _ => if l = "Num" then some 7 else none)
      (NewEnvelope Unit (0 : Nat) : Envelope Nat Nat Unit)
      (envelopeMarshal [Token.startElem "" "Num", Token.charData, Token.endElem])
      = .ok { (NewEnvelope Unit (0 : Nat) : Envelope Nat Nat Unit) with
              body := { xmlnsWsu := "", id := "", fault := none, content := some 7 } } :=
  C4_envelope_round_trip Unit (fun _ _ _ => none) (fun _ l _ => if l = "Num" then some 7 else none)
    (fun _ => [Token.startElem "" "Num", Token.charData, Token.endElem]) 7 0 "" "Num"
    [Token.charData, Token.endElem] [Token.charData] rfl rfl (by decide) rfl

/-- Model of `canonicalizationMethod` (WSSE source file). -/
structure CanonicalizationMethod where
  algorithm : String
  deriving Repr, DecidableEq

/-- Model of `signatureMethod` (WSSE source file). -/
structure SignatureMethod where
  algorithm : String
  deriving Repr, DecidableEq

/-- Model of `digestMethod` (WSSE source file). -/
structure DigestMethod where
  algorithm : String
  deriving Repr, DecidableEq

/-- Model of `digestValue` (WSSE source file). -/
structure DigestValue where
  value : String
  deriving Repr, DecidableEq

/-- Model of `transform` and `transforms` (WSSE source file). -/
structure Transforms where
  transform : CanonicalizationMethod
  deriving Repr, DecidableEq

/-- Model of `signatureReference` (WSSE source file): the single `Reference`
of a `SignedInfo`. -/
structure SignatureReference where
  uri : String
  transforms : Transforms
  digestMethod : DigestMethod
  digestValue : DigestValue
  deriving Repr, DecidableEq

/-- Model of `signedInfo` (WSSE source file): it holds exactly one
`Reference` by construction. -/
structure SignedInfo where
  xmlns : String
  canonicalizationMethod : CanonicalizationMethod
  signatureMethod : SignatureMethod
  reference : SignatureReference
  deriving Repr, DecidableEq

/-- Model of `strReference` (WSSE source file). -/
structure StrReference where
  valueType : String
  uri : String
  deriving Repr, DecidableEq

/-- Model of `securityTokenReference` (WSSE source file). -/
structure SecurityTokenReference where
  xmlns : String
  reference : StrReference
  deriving Repr, DecidableEq

/-- Model of `keyInfo` (WSSE source file). -/
structure KeyInfo where
  securityTokenReference : SecurityTokenReference
  deriving Repr, DecidableEq

/-- Model of `signature` (WSSE source file). -/
structure Signature where
  xmlns : String
  signedInfo : SignedInfo
  signatureValue : String
  keyInfo : KeyInfo
  deriving Repr, DecidableEq

/-- Model of `binarySecurityToken` (WSSE source file). -/
structure BinarySecurityToken where
  xmlns : String
  wsuID : String
  encodingType : String
  valueType : String
  value : String
  deriving Repr, DecidableEq

/-- Model of `security` (WSSE source file): the WS-Security header. -/
structure Security where
  xmlns : String
  binarySecurityToken : BinarySecurityToken
  signature : Signature
  deriving Repr, DecidableEq

/-- Model of `WSSEAuthInfo` (WSSE source file). The private key is abstract
(`κ`): `crypto/rsa` key material lives outside this repository. -/
structure WSSEAuthInfo (κ : Type) where
  certDER : String
  key : κ

/-- Model of `WSSEAuthIDs` (WSSE source file): the two identifiers minted by
`generateWSSEAuthIDs` from time-seeded randomness (a collaborator). -/
structure WSSEAuthIDs where
  securityTokenID : String
  bodyID : String
  deriving Repr, DecidableEq

/-- External collaborators used by `WSSEAuthInfo.sign`
(`encoding/xml.Marshal` on the body and on `SignedInfo`, the repository's
`canonicalize` applied to serialized bytes — byte-level XML parsing is the
`etree` collaborator — `crypto/sha1`, `encoding/base64` and
`rsa.SignPKCS1v15` with the supplied key). Bytes are `List Nat`. -/
structure SignDeps (κ α δ : Type) where
  marshalBody : Body α δ → Except SoapErr (List Nat)
  canonicalize : List Nat → String → Except SoapErr (List Nat)
  sha1Sum : List Nat → List Nat
  base64Encode : List Nat → String
  marshalSignedInfo : SignedInfo → Except SoapErr (List Nat)
  rsaSignPKCS1v15 : κ → List Nat → Except SoapErr (List Nat)

/-- Model of `WSSEAuthInfo.sign` (WSSE source file lines 223-311), translated
step by step: stamp the body with `ids.bodyID`; marshal it; canonicalize the
bytes rooted at `"Body"`; SHA-1 and base64 the canonical bytes into
`DigestValue`; build `SignedInfo` with the fixed algorithm identifiers and
the single `Reference`; marshal and SHA-1 `SignedInfo`; RSA-PKCS#1v1.5-sign
that digest with the caller-supplied key; base64 the signature; assemble the
`security` header. -/
def WSSEAuthInfo.sign (D : SignDeps κ α δ) (w : WSSEAuthInfo κ)
    (body : Body α δ) (ids : WSSEAuthIDs) : Except SoapErr Security :=
  let body := { body with id := ids.bodyID }
  match D.marshalBody body with
  | .error e => .error e
  | .ok bodyEnc =>
    match D.canonicalize bodyEnc "Body" with
    | .error e => .error e
    | .ok canonBodyEnc =>
      let encodedBodyDigest := D.base64Encode (D.sha1Sum canonBodyEnc)
      let si : SignedInfo :=
        { xmlns := dsigNS
          canonicalizationMethod := { algorithm := canonicalizationExclusiveC14N }
          signatureMethod := { algorithm := rsaSha1Sig }
          reference :=
            { uri := "#" ++ ids.bodyID
              transforms := { transform := { algorithm := canonicalizationExclusiveC14N } }
              digestMethod := { algorithm := sha1Sig }
              digestValue := { value := encodedBodyDigest } } }
      match D.marshalSignedInfo si with
      | .error e => .error e
      | .ok signedInfoEnc =>
        let signedInfoDigest := D.sha1Sum signedInfoEnc
        match D.rsaSignPKCS1v15 w.key signedInfoDigest with
        | .error e => .error e
        | .ok signatureValue =>
          let encodedSignatureValue := D.base64Encode signatureValue
          .ok
            { xmlns := wsseNS
              binarySecurityToken :=
                { xmlns := wsuNS
                  wsuID := ids.securityTokenID
                  encodingType := encTypeBinary
                  valueType := valTypeX509Token
                  value := w.certDER }
              signature :=
                { xmlns := dsigNS
                  signedInfo := si
                  signatureValue := encodedSignatureValue
                  keyInfo :=
                    { securityTokenReference :=
                        { xmlns := wsuNS
                          reference :=
                            { valueType := valTypeX509Token
                              uri := "#" ++ ids.securityTokenID } } } } }

/-- C7: whenever `WSSEAuthInfo.sign` succeeds on a body with non-nil content,
the produced security header's `SignedInfo` holds its one `Reference` (the
structure carries exactly one by construction) with URI `#bodyID`, transform
and canonicalization method the Exclusive-C14N URI, digest method SHA-1 and
`DigestValue` the base64 of the SHA-1 digest of the canonicalization (rooted
at `"Body"`) of the serialized body stamped with `bodyID`; and
`SignatureValue` is the base64 of the RSA-PKCS#1v1.5 signature, under the
caller-supplied key, of the SHA-1 digest of the serialized `SignedInfo`. -/
theorem C7_wsse_sign_shape (D : SignDeps κ α δ) (w : WSSEAuthInfo κ)
    (body : Body α δ) (ids : WSSEAuthIDs)
    (bodyEnc canonEnc siEnc sigBytes : List Nat) (sec : Security)
    (hcontent : body.content.isSome = true)
    (hm : D.marshalBody { body with id := ids.bodyID } = .ok bodyEnc)
    (hc : D.canonicalize bodyEnc "Body" = .ok canonEnc)
    (hsi : D.marshalSignedInfo
        { xmlns := dsigNS
          canonicalizationMethod := { algorithm := canonicalizationExclusiveC14N }
          signatureMethod := { algorithm := rsaSha1Sig }
          reference :=
            { uri := "#" ++ ids.bodyID
              transforms := { transform := { algorithm := canonicalizationExclusiveC14N } }
              digestMethod := { algorithm := sha1Sig }
              digestValue := { value := D.base64Encode (D.sha1Sum canonEnc) } } } = .ok siEnc)
    (hsig : D.rsaSignPKCS1v15 w.key (D.sha1Sum siEnc) = .ok sigBytes)
    (hok : WSSEAuthInfo.sign D w body ids = .ok sec) :
    sec.signature.signedInfo.reference.uri = "#" ++ ids.bodyID ∧
    sec.signature.signedInfo.reference.transforms.transform.algorithm
      = canonicalizationExclusiveC14N ∧
    sec.signature.signedInfo.canonicalizationMethod.algorithm
      = canonicalizationExclusiveC14N ∧
    sec.signature.signedInfo.reference.digestMethod.algorithm = sha1Sig ∧
    sec.signature.signedInfo.reference.digestValue.value
      = D.base64Encode (D.sha1Sum canonEnc) ∧
    sec.signature.signatureValue = D.base64Encode sigBytes := by
  unfold WSSEAuthInfo.sign at hok
  simp only [hm, hc, hsi, hsig, Except.ok.injEq] at hok
  subst hok
  exact ⟨rfl, rfl, rfl, rfl, rfl, rfl⟩

/-- Concrete collaborator bundle for the `C7` witness. -/
def witnessSignDeps : SignDeps Nat Nat Nat :=
  { marshalBody := fun _ => .ok []
    canonicalize := fun _ _ => .ok [1]
    sha1Sum := fun b => b ++ [2]
    base64Encode := fun b => toString b.length
    marshalSignedInfo := fun _ => .ok [3]
    rsaSignPKCS1v15 := fun _ _ => .ok [9] }

/-- Concrete body and ids for the `C7` witness. -/
def witnessSignBody : Body Nat Nat :=
  { xmlnsWsu := "", id := "", fault := none, content := some 4 }

/-- Concrete ids for the `C7` witness. -/
def witnessSignIDs : WSSEAuthIDs :=
  { securityTokenID := "st1", bodyID := "b1" }

/-- Witness for `C7_wsse_sign_shape` at concrete collaborators, body, ids
and key, with every hypothesis discharged by evaluation. -/
theorem C7_wsse_sign_shape_witness :
    ∃ sec, WSSEAuthInfo.sign witnessSignDeps { certDER := "CERT", key := 0 }
        witnessSignBody witnessSignIDs = .ok sec ∧
      sec.signature.signedInfo.reference.uri = "#b1" ∧
      sec.signature.signedInfo.reference.digestValue.value
        = witnessSignDeps.base64Encode (witnessSignDeps.sha1Sum [1]) ∧
      sec.signature.signatureValue = witnessSignDeps.base64Encode [9] := by
  refine ⟨WSSEAuthInfo.sign witnessSignDeps { certDER := "CERT", key := 0 }
      witnessSignBody witnessSignIDs |>.toOption.get (by rfl), ?_⟩
  have h := C7_wsse_sign_shape witnessSignDeps { certDER := "CERT", key := 0 }
    witnessSignBody witnessSignIDs [] [1] [3] [9]
    ((WSSEAuthInfo.sign witnessSignDeps { certDER := "CERT", key := 0 }
        witnessSignBody witnessSignIDs).toOption.get (by rfl))
    rfl rfl rfl rfl rfl (by rfl)
  exact ⟨by rfl, h.1, h.2.2.2.2.1, h.2.2.2.2.2⟩

/-- Model of `Envelope.signWithWSSEInfo` (envelope.go lines 65-89). The Go
method mutates the envelope in place and returns an error; the model returns
the (possibly partially) mutated envelope together with the optional error.
`genIds` stands for `generateWSSEAuthIds()` (time-seeded randomness, a
collaborator). Note the xsd/xsi namespace attributes are assigned BEFORE the
empty-content check, so they are modified even when the error is returned. -/
def Envelope.signWithWSSEInfo (D : SignDeps κ α δ) (info : WSSEAuthInfo κ)
    (genIds : Except SoapErr WSSEAuthIDs) (e : Envelope α δ Security) :
    Envelope α δ Security × Option SoapErr :=
  let e := { e with xmlnsXsd := xsdNS, xmlnsXsi := xsiNS }
  match e.body.content with
  | none => (e, some .unableToSignEmptyEnvelope)
  | some _ =>
    let e := { e with body := { e.body with xmlnsWsu := wsuNS } }
    match genIds with
    | .error err => (e, some err)
    | .ok ids =>
      match WSSEAuthInfo.sign D info e.body ids with
      | .error err => (e, some err)
      | .ok securityHeader =>
        let e := e.AddHeaders [HeaderElem.security securityHeader]
        ({ e with body := { e.body with id := ids.bodyID } }, none)

/-- C10: for every envelope whose `Body.Content` is nil, `signWithWSSEInfo`
returns `ErrUnableToSignEmptyEnvelope`, appends no security header (the
header list is unchanged), leaves the body — in particular `Body.ID` —
untouched, and yet has already set the xsd/xsi namespace attributes on the
envelope before the check. -/
theorem C10_sign_empty_envelope (D : SignDeps κ α δ) (info : WSSEAuthInfo κ)
    (genIds : Except SoapErr WSSEAuthIDs) (e : Envelope α δ Security)
    (hnil : e.body.content = none) :
    (Envelope.signWithWSSEInfo D info genIds e).2 = some .unableToSignEmptyEnvelope ∧
    (Envelope.signWithWSSEInfo D info genIds e).1.header = e.header ∧
    (Envelope.signWithWSSEInfo D info genIds e).1.body = e.body ∧
    (Envelope.signWithWSSEInfo D info genIds e).1.body.id = e.body.id ∧
    (Envelope.signWithWSSEInfo D info genIds e).1.xmlnsXsd = xsdNS ∧
    (Envelope.signWithWSSEInfo D info genIds e).1.xmlnsXsi = xsiNS := by
  simp [Envelope.signWithWSSEInfo, hnil]

/-- Witness for `C10_sign_empty_envelope` on a concrete envelope with nil
content. -/
theorem C10_sign_empty_envelope_witness :
    (Envelope.signWithWSSEInfo witnessSignDeps { certDER := "CERT", key := 0 }
        (.ok witnessSignIDs)
        { xmlnsXsd := "", xmlnsXsi := "", header := none,
          body := { xmlnsWsu := "", id := "", fault := none, content := (none : Option Nat) } }).2
      = some .unableToSignEmptyEnvelope :=
  (C10_sign_empty_envelope witnessSignDeps { certDER := "CERT", key := 0 }
    (.ok witnessSignIDs)
    { xmlnsXsd := "", xmlnsXsi := "", header := none,
      body := { xmlnsWsu := "", id := "", fault := none, content := none } } rfl).1

mutual

/-- Model of an `etree` element tree. `space` is the element's prefix
(`etree.Element.Space`), `tag` its local name, `attrs` the attribute list in
document order with full keys (`"xmlns"`, `"xmlns:ns1"`, `"href"`, ...).
`XNodes` is a specialized list so that all tree recursions are structural
and kernel-reducible. -/
inductive XNode where
  | elem (space tag : String) (attrs : List (String × String)) (children : XNodes)
  | text (s : String)
  deriving Repr

inductive XNodes where
  | nil
  | cons (head : XNode) (tail : XNodes)
  deriving Repr

end

/-- First-match association-list lookup (Go map read). -/
def lookupAssoc : List (String × String) → String → Option String
  | [], _ => none
  | (k, v) :: rest, key => if k = key then some v else lookupAssoc rest key

/-- Model of `etree.Element.CreateAttr`: replace the value of an existing
attribute with the same key, else append. -/
def createAttr (attrs : List (String × String)) (k v : String) : List (String × String) :=
  if attrs.any (fun a => a.1 = k) then
    attrs.map (fun a => if a.1 = k then (k, v) else a)
  else attrs ++ [(k, v)]

/-- Apply a sequence of `CreateAttr` calls in order. -/
def applyCreates (attrs : List (String × String)) : List (String × String) → List (String × String)
  | [] => attrs
  | (k, v) :: rest => applyCreates (createAttr attrs k v) rest

/-- Model of `etree.Element.RemoveAttr`: drop the first attribute with the
given key. -/
def removeAttr (key : String) : List (String × String) → List (String × String)
  | [] => []
  | (k, v) :: rest => if k = key then rest else (k, v) :: removeAttr key rest

/-- The attribute loop of `canonicalizeChildren` (canonicalizer source file
lines 120-135) on one child element: starting from the parent's (already
canonicalized) space, each `xmlns` declaration either is skipped (SOAP
envelope namespace), reuses the prefix already mapped for its URI, or mints
`nsN`, advances the counter, extends the URI-to-prefix map and records the
`CreateAttr("xmlns:nsN", uri)` call. Returns the final prefix, counter, map
and the pending `CreateAttr` operations. (Go appends to the attribute slice
while ranging over its original elements; recording the appends and applying
them after the scan has the same effect.) -/
def canonAttrScan (canonNs : String) (idx : Nat) (map : List (String × String))
    (pending : List (String × String)) :
    List (String × String) → String × Nat × List (String × String) × List (String × String)
  | [] => (canonNs, idx, map, pending)
  | (k, v) :: rest =>
    if k = "xmlns" then
      if v = soapEnvNS then canonAttrScan canonNs idx map pending rest
      else
        match lookupAssoc map v with
        | some existingNs => canonAttrScan existingNs idx map pending rest
        | none =>
          let newNs := "ns" ++ toString idx
          canonAttrScan newNs (idx + 1) (map ++ [(v, newNs)])
            (pending ++ [("xmlns:" ++ newNs, v)]) rest
    else canonAttrScan canonNs idx map pending rest

/-- Model of `canonicalizeChildren` (canonicalizer source file lines
114-144): rewrite every child element of a node whose (already rewritten)
space is `parentSpace`, depth-first and in document order, threading the
shared prefix counter and URI-to-prefix map through the whole traversal.
For each child element: run the attribute loop, set the element's space to
the resulting prefix, remove the `xmlns` attribute, then recurse into the
child before moving to the next sibling. -/
def canonicalizeChildren (parentSpace : String) (idx : Nat)
    (map : List (String × String)) :
    XNodes → XNodes × Nat × List (String × String)
  | .nil => (.nil, idx, map)
  | .cons (.text s) rest =>
    let (r, i, m) := canonicalizeChildren parentSpace idx map rest
    (.cons (.text s) r, i, m)
  | .cons (.elem _ tag attrs cs) rest =>
    let (canonNs, i1, m1, pending) := canonAttrScan parentSpace idx map [] attrs
    let attrs1 := removeAttr "xmlns" (applyCreates attrs pending)
    let (cs', i2, m2) := canonicalizeChildren canonNs i1 m1 cs
    let (r, i3, m3) := canonicalizeChildren parentSpace i2 m2 rest
    (.cons (.elem canonNs tag attrs1 cs') r, i3, m3)

/-- Model of `canonicalize(bytes, "")` (canonicalizer source file lines
79-105) after the `etree` parse collaborator has produced the document's
root element: with the empty root path, `FindElement("")` yields the
document element itself (prefix `""`, children = the root element) — the
repository's base-case canonicalization test pins this behaviour, its
expected output rewrites the root — so `canonicalizeChildren` runs over the
root itself with `nsIdx` starting at 1 and an empty namespace map. -/
def canonicalizeEmptyPath (root : XNode) : XNodes × Nat × List (String × String) :=
  canonicalizeChildren "" 1 [] (.cons root .nil)

/-- Attribute serialization of `etree`: a space, the full key, `="value"`. -/
def serializeAttrs (attrs : List (String × String)) : String :=
  attrs.foldl (fun acc a => acc ++ " " ++ a.1 ++ "=\x22" ++ a.2 ++ "\x22") ""

mutual

/-- Serialization model of `etree.Document.WriteToBytes` with
`CanonicalEndTags` (every element gets an explicit end tag); prefixed names
serialize as `space:tag`. Text is emitted as-is (the scenario needs no
character escaping). -/
def serializeNode : XNode → String
  | .text s => s
  | .elem sp tag attrs cs =>
    let n := if sp = "" then tag else sp ++ ":" ++ tag
    "<" ++ n ++ serializeAttrs attrs ++ ">" ++ serializeNodes cs ++ "</" ++ n ++ ">"

def serializeNodes : XNodes → String
  | .nil => ""
  | .cons n rest => serializeNode n ++ serializeNodes rest

end

/-- The parsed form of `<request xmlns="urn:x"><a>1</a></request>`
(end-to-end scenario D). -/
def scenarioDInput : XNode :=
  .elem "" "request" [("xmlns", "urn:x")]
    (.cons (.elem "" "a" [] (.cons (.text "1") .nil)) .nil)

/-- Canonicalization of scenario D with the empty root path. -/
def scenarioDResult : XNodes × Nat × List (String × String) :=
  canonicalizeEmptyPath scenarioDInput

/-- Serialized canonical output of scenario D. -/
def scenarioDOutput : String :=
  serializeNodes scenarioDResult.1

/-- C8 counterexample: the canonicalizer's actual output on scenario D ends
with the prefixed closing tag `</ns1:request>`, not the unprefixed
`</request>` that the claim states, so the claimed exact output is wrong. -/
theorem C8_counterexample :
    scenarioDOutput = "<ns1:request xmlns:ns1=\x22urn:x\x22><ns1:a>1</ns1:a></ns1:request>" ∧
    scenarioDOutput ≠ "<ns1:request xmlns:ns1=\x22urn:x\x22><ns1:a>1</ns1:a></request>" := by
  exact ⟨rfl, by decide⟩

/-- C8 (amended): canonicalizing `<request xmlns="urn:x"><a>1</a></request>`
with an empty root path yields exactly
`<ns1:request xmlns:ns1="urn:x"><ns1:a>1</ns1:a></ns1:request>`; the prefix
`ns1` is minted exactly once for the namespace URI (the counter advances
from 1 to 2 and the map holds the single entry `urn:x -> ns1`) and reused on
the descendant element. -/
theorem C8_canonicalize_scenario :
    scenarioDOutput = "<ns1:request xmlns:ns1=\x22urn:x\x22><ns1:a>1</ns1:a></ns1:request>" ∧
    scenarioDResult.2.1 = 2 ∧
    scenarioDResult.2.2 = [("urn:x", "ns1")] := by
  exact ⟨rfl, rfl, rfl⟩

mutual

/-- Model of a `reflect.Value` as used by the field-path resolver in xop.go.
Nil pointers / nil interfaces are separate constructors (no `Option`
nesting) so that every recursion stays structural and kernel-reducible.
`invalidV` is the zero `reflect.Value`; Go panics when `Type()` is called on
it (none of the claims' inputs reach such a state). `bytesV` is a `[]uint8`
slice, `sliceV` any other slice or array, `uint8V` a single byte obtained by
indexing into a byte slice. -/
inductive GoValue where
  | structV (typeName : String) (fields : GoFields)
  | ptrV (elem : GoValue)
  | nilPtrV
  | ifaceV (elem : GoValue)
  | nilIfaceV
  | bytesV (data : List Nat)
  | sliceV (elems : GoValues)
  | stringV (s : String)
  | uint8V (b : Nat)
  | invalidV

/-- Field list of a struct `GoValue`, in declaration order. -/
inductive GoFields where
  | nil
  | cons (f : GoField) (rest : GoFields)

/-- One struct field: Go field name, `xml` tag (empty when absent),
anonymous (embedded) flag and value. -/
inductive GoField where
  | mk (fname tag : String) (anonymous : Bool) (value : GoValue)

/-- Element list of a non-byte slice value. -/
inductive GoValues where
  | nil
  | cons (v : GoValue) (rest : GoValues)

end

/-- Character-list prefix test (structural, kernel-reducible). -/
def charsHavePrefix : List Char → List Char → Bool
  | [], _ => true
  | _ :: _, [] => false
  | a :: as, b :: bs => a = b && charsHavePrefix as bs

/-- Model of `strings.Contains` on character lists. -/
def containsSub : List Char → List Char → Bool
  | [], sub => sub.isEmpty
  | c :: rest, sub => charsHavePrefix sub (c :: rest) || containsSub rest sub

/-- Model of `strings.Contains`. -/
def strContainsSubstr (s sub : String) : Bool :=
  containsSub s.data sub.data

/-- Remove the first occurrence of `pat` from the list (the work done by
`strings.Replace(s, pat, "", 1)`). -/
def removeFirstOccur (pat : List Char) : List Char → List Char
  | [] => []
  | c :: rest =>
    if charsHavePrefix pat (c :: rest) then (c :: rest).drop pat.length
    else c :: removeFirstOccur pat rest

/-- Model of `strings.Replace(href, "cid:", "", 1)` (xop.go line 69). -/
def replaceFirstCid (href : String) : String :=
  String.mk (removeFirstOccur "cid:".data href.data)

/-- Split a character list on every occurrence of `sep`
(`strings.Split` with a one-character separator). -/
def splitOnChar (sep : Char) : List Char → List (List Char)
  | [] => [[]]
  | c :: rest =>
    match splitOnChar sep rest with
    | [] => [[]]
    | g :: gs => if c = sep then [] :: g :: gs else (c :: g) :: gs

/-- Model of `getNameFromTag` (xop.go lines 212-224): empty tag gives no
name; otherwise drop the namespace before the last space and return the part
of the remainder before the first comma. -/
def getNameFromTag (tag : String) : String :=
  if tag = "" then ""
  else
    let afterSpace := (splitOnChar ' ' tag.data).getLastD []
    String.mk ((splitOnChar ',' afterSpace).headD [])

/-- Inner loop of `getExplicitXMLName` (xop.go lines 231-245): find the
field named `XMLName`; at that field return the tag's name (possibly empty —
the Go loop then breaks and returns the empty string). -/
def findXMLNameField : GoFields → String
  | .nil => ""
  | .cons (.mk fname tag _ _) rest =>
    if fname = "XMLName" then getNameFromTag tag else findXMLNameField rest

/-- Model of `getExplicitXMLName` (xop.go lines 227-250): only struct values
can carry an `XMLName` field. -/
def getExplicitXMLName : GoValue → String
  | .structV _ fields => findXMLNameField fields
  | _ => ""

/-- Model of `unwrapValue` (xop.go lines 192-210): dereference pointers and
interfaces; a slice or array of capacity 0 is returned as-is, otherwise its
first element is unwrapped; anything else is already unwrapped. `Elem()` on
a nil pointer/interface yields the zero `reflect.Value`, on which the next
`Type()` call panics in Go; the model returns `invalidV` (never reached by
the claims' inputs). -/
def unwrapValue : GoValue → GoValue
  | .ptrV v => unwrapValue v
  | .nilPtrV => .invalidV
  | .ifaceV v => unwrapValue v
  | .nilIfaceV => .invalidV
  | .bytesV [] => .bytesV []
  | .bytesV (b :: _) => .uint8V b
  | .sliceV .nil => .sliceV .nil
  | .sliceV (.cons v _) => unwrapValue v
  | .structV t fs => .structV t fs
  | .stringV s => .stringV s
  | .uint8V b => .uint8V b
  | .invalidV => .invalidV

/-- Kind test used by the resolver: is the (unwrapped) value still a slice
or array? -/
def isSliceKind : GoValue → Bool
  | .bytesV _ => true
  | .sliceV _ => true
  | _ => false

/-- Does `field.Type().String() == "[]uint8"` hold? -/
def isBytesValue : GoValue → Bool
  | .bytesV _ => true
  | _ => false

/-- Model of `reflect.Value.Elem()` on the resolver's root argument. -/
def goElem : GoValue → GoValue
  | .ptrV v => v
  | .ifaceV v => v
  | _ => .invalidV

/-- `path[i]` (Go panics when `i` is out of range; the resolver only reads
indices kept below `len(path)` by its increment-then-compare pattern, except
for degenerate include paths that would panic in Go and are not produced by
the claims' inputs). -/
def pathGet (path : List String) (i : Nat) : String :=
  path.getD i ""

/-- Outcome of scanning one struct's fields (xop.go lines 122-183):
the final path segment was resolved; a slice field matched a non-final
segment (immediate `errFieldNotFound`); a non-final segment matched and
resolution restarts at that field's value with the next index; or no field
matched and the unwrapped values of the anonymous fields (in declaration
order) are queued. -/
inductive ScanOutcome where
  | foundFinal (v : GoValue)
  | sliceDeadEnd
  | restart (v : GoValue) (i : Nat)
  | nomatch (extra : List GoValue)

/-- The inner `for j` loop of `getFieldFromIncludePath` over one struct's
fields: skip `XMLName` and fields tagged `-`; unwrap the field value; a
still-slice value is a leaf candidate matched by its tag name; anonymous
fields are queued; otherwise derive the field's element name (tag name, else
explicit `XMLName` of the value, else the Go field name) and on a match
either finish or restart at that value. -/
def scanFields (path : List String) (i : Nat) (acc : List GoValue) : GoFields → ScanOutcome
  | .nil => .nomatch acc
  | .cons (.mk fname tag anon fval) rest =>
    if fname = "XMLName" then scanFields path i acc rest
    else if tag = "-" then scanFields path i acc rest
    else
      let v := unwrapValue fval
      if isSliceKind v then
        if getNameFromTag tag = pathGet path i then
          if i + 1 = path.length then .foundFinal v
          else .sliceDeadEnd
        else scanFields path i acc rest
      else if anon then scanFields path i (acc ++ [v]) rest
      else
        let tagName := getNameFromTag tag
        let fieldName :=
          if tagName ≠ "" then tagName
          else if getExplicitXMLName v ≠ "" then getExplicitXMLName v
          else fname
        if fieldName = pathGet path i then
          if i + 1 = path.length then .foundFinal v
          else .restart v (i + 1)
        else scanFields path i acc rest

/-- The outer `for len(elems) > 0` loop of `getFieldFromIncludePath`
(xop.go lines 118-184). The Go loop terminates because every queued value is
a strict subvalue of a previously queued one; the fuel argument (started at
a bound exceeding the total size of the root value) makes that explicit.
`reflect.Value.NumField` on a non-struct queue entry would panic in Go; the
model returns `fieldNotFound` there (not reached by the claims' inputs). -/
def resolveLoop (path : List String) : Nat → List GoValue → Nat → Except SoapErr GoValue
  | 0, _, _ => .error .resolverFuelExhausted
  | _ + 1, [], _ => .error .fieldNotFound
  | fuel + 1, e :: elems, i =>
    match e with
    | .structV _ fields =>
      match scanFields path i [] fields with
      | .foundFinal v => .ok v
      | .sliceDeadEnd => .error .fieldNotFound
      | .restart v j => resolveLoop path fuel [v] j
      | .nomatch extra => resolveLoop path fuel (elems ++ extra) i
    | _ => .error .fieldNotFound

mutual

/-- Size of a `GoValue`, used as the fuel bound for `resolveLoop`. -/
def goValueSize : GoValue → Nat
  | .structV _ fs => 1 + goFieldsSize fs
  | .ptrV v => 1 + goValueSize v
  | .ifaceV v => 1 + goValueSize v
  | .sliceV vs => 1 + goValuesSize vs
  | _ => 1

/-- Size of a field list. -/
def goFieldsSize : GoFields → Nat
  | .nil => 0
  | .cons (.mk _ _ _ v) rest => 1 + goValueSize v + goFieldsSize rest

/-- Size of a value list. -/
def goValuesSize : GoValues → Nat
  | .nil => 0
  | .cons v rest => 1 + goValueSize v + goValuesSize rest

end

/-- Model of `getFieldFromIncludePath` (xop.go lines 83-187). The root-name
verification reproduces the Go source faithfully: lines 100-103 read

`rootName := ""` and then
`if rootName := getExplicitXMLName(root); rootName == "" { rootName = root.Type().Name() }`.

The `:=` inside the `if` statement declares a NEW `rootName` whose scope is
that `if` statement only; both the explicit-XML-name result and the
type-name fallback are assigned to the inner variable and discarded, so the
outer `rootName` compared against `path[1]` below is always the empty
string (the computation of `getExplicitXMLName(root)` and
`root.Type().Name()` is side-effect free and therefore not modelled). -/
def getFieldFromIncludePath (val : GoValue) (path : List String) : Except SoapErr GoValue :=
  match path with
  | [] => .error .pathIndexOutOfRange
  | p0 :: ptail =>
    if p0 ≠ "Body" then .error (.invalidIncludePath (p0 :: ptail))
    else
      let root := goElem val
      let rootName := ""
      match ptail with
      | [] => .error .pathIndexOutOfRange
      | p1 :: _ =>
        if rootName ≠ p1 then .error (.invalidObjectPath rootName p1)
        else resolveLoop path (goValueSize root + 1) [root] 2

/-- First-match lookup in the include map (Go map read with `ok` flag). -/
def lookupPath : List (String × List String) → String → Option (List String)
  | [], _ => none
  | (k, v) :: rest, key => if k = key then some v else lookupPath rest key

/-- Go map assignment `d.includes[key] = v`: replace or add. -/
def setAssoc (m : List (String × List String)) (key : String) (v : List String) :
    List (String × List String) :=
  if m.any (fun e => e.1 = key) then
    m.map (fun e => if e.1 = key then (key, v) else e)
  else m ++ [(key, v)]

/-- The attribute loop of `getXopContentIDIncludePath` (xop.go lines 60-66):
starting from the element's own prefix, a plain `xmlns` declaration replaces
the namespace and an `href` attribute is captured (last occurrence wins, as
in the Go loop). -/
def xopAttrScan (ns href : String) : List (String × String) → String × String
  | [] => (ns, href)
  | (k, v) :: rest =>
    if k = "xmlns" then xopAttrScan v href rest
    else if k = "href" then xopAttrScan ns v rest
    else xopAttrScan ns href rest

/-- Children of an element node (text has none). -/
def childrenOf : XNode → XNodes
  | .elem _ _ _ cs => cs
  | .text _ => .nil

/-- Model of `xopDecoder.getXopContentIDIncludePath` (xop.go lines 53-81),
iterating the children of one element: non-element tokens are skipped; an
element whose resolved namespace is the XOP namespace and whose tag is
`Include` records `includes["<" + href-without-first-"cid:" + ">"] = path`
and is not recursed into (the Go `break` leaves the switch and skips the
recursion, the sibling loop continues); any other element is recursed into
with its tag appended to the path. -/
def getXopContentIDIncludePath (includes : List (String × List String))
    (path : List String) : XNodes → List (String × List String)
  | .nil => includes
  | .cons (.text _) rest => getXopContentIDIncludePath includes path rest
  | .cons (.elem sp tag attrs cs) rest =>
    let nshref := xopAttrScan sp "" attrs
    if nshref.1 = xopNS ∧ tag = "Include" then
      let cleanedHref := replaceFirstCid nshref.2
      getXopContentIDIncludePath
        (setAssoc includes ("<" ++ cleanedHref ++ ">") path) path rest
    else
      let includes1 := getXopContentIDIncludePath includes (path ++ [tag]) cs
      getXopContentIDIncludePath includes1 path rest

/-- One outcome of `multipart.Reader.NextPart()` (mime/multipart is an
external collaborator): a part, a nil part with nil error, or a non-EOF read
error; the end of the list is `io.EOF`. -/
structure MimePart where
  contentType : String
  contentID : String
  tree : Option XNode
  raw : List Nat

/-- Event stream of the multipart reader. -/
inductive PartEvent where
  | somePart (p : MimePart)
  | nilPart
  | readFail

/-- External collaborators of `xopDecoder.decode`: the pipe re-serialization
plus typed envelope decode (`etree.WriteTo` + `encoding/xml` on the caller's
types, producing the populated `respEnvelope.Body.Content` as a reflected
value), `reflect.Value.CanSet` on the resolved field, and
`reflect.Value.SetBytes` writing through the resolved field into the content
object. -/
structure XopDeps where
  envelopeDecode : XNode → Except SoapErr GoValue
  canSet : GoValue → Bool
  setBytes : GoValue → List String → List Nat → GoValue

/-- The part loop of `xopDecoder.decode` (xop.go lines 257-337), with the
decoder state (`parsedXOPHeader`, `partNumber`, `d.includes`,
`respEnvelope.Body.Content`) threaded explicitly. Order of the checks as in
the Go `if`/`else if` chain: `io.EOF` breaks (returning nil and the final
content), a read error is returned unchanged, a nil part is
`ErrMultipartBodyEmpty`, a part arriving while no xop+xml part has been seen
and `partNumber > 0` is `ErrMissingXOPPart`. An xop+xml part (content type
containing `application/xop+xml`) is parsed, scanned for include paths from
the root's children with a nil path, then decoded as the envelope; if no
includes were collected the loop breaks. Any other part is looked up by its
`Content-ID`; misses are skipped; hits resolve the recorded path against the
content, require a settable `[]uint8` field, and store the part's raw bytes. -/
def xopDecodeLoop (D : XopDeps) (parsedXOPHeader : Bool) (partNumber : Nat)
    (includes : List (String × List String)) (content : GoValue) :
    List PartEvent → Except SoapErr GoValue
  | [] => .ok content
  | .readFail :: _ => .error .xmlError
  | .nilPart :: _ => .error .multipartBodyEmpty
  | .somePart p :: rest =>
    if !parsedXOPHeader && partNumber != 0 then .error .missingXOPPart
    else
      let partNumber := partNumber + 1
      if strContainsSubstr p.contentType "application/xop+xml" then
        match p.tree with
        | none => .error .xmlError
        | some root =>
          let includes := getXopContentIDIncludePath includes [] (childrenOf root)
          match D.envelopeDecode root with
          | .error e => .error e
          | .ok newContent =>
            if includes.length < 1 then .ok newContent
            else xopDecodeLoop D true partNumber includes newContent rest
      else
        match lookupPath includes p.contentID with
        | none => xopDecodeLoop D parsedXOPHeader partNumber includes content rest
        | some xopObjPath =>
          match getFieldFromIncludePath content xopObjPath with
          | .error e => .error e
          | .ok field =>
            if !D.canSet field then .error .cannotSetBytesElement
            else if !isBytesValue field then .error .fieldNotArray
            else xopDecodeLoop D parsedXOPHeader partNumber includes
                (D.setBytes content xopObjPath p.raw) rest

/-- Model of the `xopDecoder` state that matters to `decode`: the multipart
reader (as its event stream) and the envelope's content destination. -/
structure XopDecoder where
  events : List PartEvent
  content : GoValue

/-- Model of `xopDecoder.decode` (xop.go lines 252-340): run the part loop
from the initial state (`parsedXOPHeader = false`, `partNumber = 0`, empty
include map). -/
def XopDecoder.decode (D : XopDeps) (d : XopDecoder) : Except SoapErr GoValue :=
  xopDecodeLoop D false 0 [] d.content d.events

/-- The xop+xml root part of end-to-end scenario C, as parsed by `etree`:
`Body/Report/CsvData` containing one `<Include href="cid:X">` in the XOP
namespace. -/
def scenarioCTree : XNode :=
  .elem "S" "Envelope" []
    (.cons (.elem "S" "Body" []
      (.cons (.elem "" "Report" [("xmlns", "urn:example")]
        (.cons (.elem "" "CsvData" []
          (.cons (.elem "" "Include" [("xmlns", xopNS), ("href", "cid:X")] .nil) .nil))
          .nil))
        .nil))
      .nil)

/-- The populated content destination of scenario C: a pointer to a struct
whose declared element name (`XMLName` tag) is `Report`, matching the path
segment after `Body`, with a settable `CsvData []byte` field. -/
def scenarioCContent : GoValue :=
  .ptrV (.structV "Report"
    (.cons (.mk "XMLName" "Report" false (.structV "Name" .nil))
      (.cons (.mk "CsvData" "CsvData,omitempty" false (.bytesV [])) .nil)))

/-- Collaborators for scenario C: the envelope decode succeeds and produces
the populated content; every resolved field is settable (the destination is
reached through a pointer); `SetBytes` is never reached on this input. -/
def scenarioCDeps : XopDeps :=
  { envelopeDecode := fun _ => .ok scenarioCContent
    canSet := fun _ => true
    setBytes := fun c _ _ => c }

/-- The two MIME parts of scenario C: the xop+xml root part and the
`text/csv` part with Content-ID `<X>` and raw body `"a,b,c\n"`. -/
def scenarioCEvents : List PartEvent :=
  [.somePart { contentType := "application/xop+xml;charset=utf-8;type=text/xml"
               contentID := "<root>"
               tree := some scenarioCTree
               raw := [] },
   .somePart { contentType := "text/csv"
               contentID := "<X>"
               tree := none
               raw := [97, 44, 98, 44, 99, 10] }]

/-- C2: on the two-part message of scenario C — whose include path
`Body/Report/CsvData` is recorded correctly and whose second part's
Content-ID matches — `xopDecoder.decode` FAILS with
`invalid XML object path, expected , got Report` instead of storing
`"a,b,c\n"` into the `CsvData` field: the root-name check of
`getFieldFromIncludePath` compares `path[1]` against an outer `rootName`
that is always empty because the short variable declaration in the `if` of
xop.go line 101 shadows it. The repository's own multipart test expects this
decode to succeed, so the code contradicts its test. -/
theorem C2_xop_decode_shadowed_root_name :
    XopDecoder.decode scenarioCDeps
        { events := scenarioCEvents, content := scenarioCContent }
      = .error (.invalidObjectPath "" "Report") ∧
    getFieldFromIncludePath scenarioCContent ["Body", "Report", "CsvData"]
      = .error (.invalidObjectPath "" "Report") := by
  exact ⟨rfl, rfl⟩

/-- A single-part multipart body whose only part is not xop+xml. -/
def c6NonXopPart : MimePart :=
  { contentType := "text/csv", contentID := "<Y>", tree := none, raw := [] }

/-- The xop+xml part of scenario C, repeated twice. -/
def c6TwoXopEvents : List PartEvent :=
  [.somePart { contentType := "application/xop+xml;charset=utf-8;type=text/xml"
               contentID := "<root>"
               tree := some scenarioCTree
               raw := [] },
   .somePart { contentType := "application/xop+xml;charset=utf-8;type=text/xml"
               contentID := "<root2>"
               tree := some scenarioCTree
               raw := [] }]

/-- C6 counterexample: (i) a multipart message whose single part 0 lacks the
xop+xml content type decodes successfully (nil error) — the missing-XOP
check only fires when a further part arrives — and (ii) a message with TWO
xop+xml parts is not an error either: the second is re-processed as a new
root part. Both refute the claimed `ErrMissingXOPPart`. -/
theorem C6_counterexample :
    XopDecoder.decode scenarioCDeps
        { events := [.somePart c6NonXopPart], content := .stringV "dest" }
      = .ok (.stringV "dest") ∧
    XopDecoder.decode scenarioCDeps
        { events := [.somePart c6NonXopPart], content := .stringV "dest" }
      ≠ .error .missingXOPPart ∧
    XopDecoder.decode scenarioCDeps
        { events := c6TwoXopEvents, content := .stringV "dest" }
      = .ok scenarioCContent ∧
    XopDecoder.decode scenarioCDeps
        { events := c6TwoXopEvents, content := .stringV "dest" }
      ≠ .error .missingXOPPart := by
  refine ⟨rfl, ?_, rfl, ?_⟩
  · intro h
    rw [show XopDecoder.decode scenarioCDeps
        { events := [.somePart c6NonXopPart], content := .stringV "dest" }
      = .ok (.stringV "dest") from rfl] at h
    exact Except.noConfusion h
  · intro h
    rw [show XopDecoder.decode scenarioCDeps
        { events := c6TwoXopEvents, content := .stringV "dest" }
      = .ok scenarioCContent from rfl] at h
    exact Except.noConfusion h

/-- C6 (amended): `xopDecoder.decode` returns `ErrMissingXOPPart` exactly
when the reader yields a further part while no xop+xml part has been seen —
so a non-xop part 0 is only detected once a second part arrives, and a
single-part message with a non-xop part 0 decodes successfully with the
content untouched; a nil part yielded by the reader (as the next event) is
`ErrMultipartBodyEmpty`. -/
theorem C6_xop_error_discipline (D : XopDeps) (content : GoValue)
    (p0 p1 : MimePart) (rest : List PartEvent)
    (hct : strContainsSubstr p0.contentType "application/xop+xml" = false) :
    XopDecoder.decode D { events := [.somePart p0], content := content } = .ok content ∧
    XopDecoder.decode D { events := .somePart p0 :: .somePart p1 :: rest, content := content }
      = .error .missingXOPPart ∧
    XopDecoder.decode D { events := .nilPart :: rest, content := content }
      = .error .multipartBodyEmpty := by
  refine ⟨?_, ?_, rfl⟩
  · simp [XopDecoder.decode, xopDecodeLoop, hct, lookupPath]
  · simp [XopDecoder.decode, xopDecodeLoop, hct, lookupPath]

/-- Witness for `C6_xop_error_discipline` on concrete parts. -/
theorem C6_xop_error_discipline_witness :
    XopDecoder.decode scenarioCDeps
        { events := [.somePart c6NonXopPart], content := .stringV "d" }
      = .ok (.stringV "d") ∧
    XopDecoder.decode scenarioCDeps
        { events := [.somePart c6NonXopPart, .somePart c6NonXopPart], content := .stringV "d" }
      = .error .missingXOPPart ∧
    XopDecoder.decode scenarioCDeps
        { events := [.nilPart], content := .stringV "d" }
      = .error .multipartBodyEmpty :=
  C6_xop_error_discipline scenarioCDeps (.stringV "d") c6NonXopPart c6NonXopPart [] rfl

end Gosoap
